import Mathlib

/-!
Verification of the bank-parser agent repository.

This file gives a shallow embedding of the two pieces of code the claims
are about:

* `agent.py` — the `BankParserAgent` class: its `run` retry loop, the
  plan / generate / test phases, and the CLI credential handling.
* `custom_parsers/icici_parser.py` — the generated `parse` function.

External effects (the LLM service, `pandas`, `pdfplumber`, the file
system, Python's `float`) are modelled as explicit environment records;
everything written in the repository itself (control flow, string
processing, the regular expressions, the retry loop) is translated
directly.  Python exceptions are modelled with `Except`; machine floats
are modelled with `Rat` (the claims are about the structure of the
computations, not float rounding).
-/

/-! ## Python string primitives

The repository manipulates strings with `str.split`, `str.strip`,
`str.join`, `str.startswith`, `in`, `str.replace` and `str.upper`.
We model them over `List Char` with structural recursion so that every
definition evaluates inside the kernel.
-/

/-- Python's `\s` whitespace class (ASCII part). -/
def wsChar (c : Char) : Bool :=
  c = ' ' || c = '\t' || c = '\n' || c = '\r' || c = '\x0b' || c = '\x0c'

/-- Python `str.strip` on a character list. -/
def stripList (l : List Char) : List Char :=
  ((l.dropWhile wsChar).reverse.dropWhile wsChar).reverse

/-- Python `str.strip`. -/
def pyStrip (s : String) : String := ⟨stripList s.data⟩

/-- Whether `pre` is a leading segment of `s` (Python `str.startswith`). -/
def leadsWith : List Char → List Char → Bool
  | [], _ => true
  | _ :: _, [] => false
  | a :: as, b :: bs => a = b && leadsWith as bs

/-- Python `str.startswith`. -/
def pyStarts (s pre : String) : Bool := leadsWith pre.data s.data

/-- Python `sub in s` substring test (for non-empty `sub`). -/
def containsList (sub : List Char) : List Char → Bool
  | [] => sub.isEmpty
  | c :: rest => leadsWith sub (c :: rest) || containsList sub rest

/-- Python `sub in s`. -/
def pyIn (sub s : String) : Bool := containsList sub.data s.data

/-- Split at the first occurrence of `sep`, returning the part before it
and the part after it, or `none` when `sep` does not occur. -/
def breakOn (sep : List Char) : List Char → Option (List Char × List Char)
  | [] => none
  | c :: rest =>
    if leadsWith sep (c :: rest) then some ([], List.drop sep.length (c :: rest))
    else
      match breakOn sep rest with
      | none => none
      | some (pre, post) => some (c :: pre, post)

/-- Fuelled worker for Python `str.split(sep)` (with non-empty `sep`). -/
def pySplitAux (sep : List Char) : Nat → List Char → List (List Char)
  | 0, s => [s]
  | fuel + 1, s =>
    match breakOn sep s with
    | none => [s]
    | some (pre, post) => pre :: pySplitAux sep fuel post

/-- Python `s.split(sep)` for a non-empty separator. -/
def pySplit (sep s : String) : List String :=
  (pySplitAux sep.data (s.data.length + 1) s.data).map (fun l => ⟨l⟩)

/-- Python `sep.join(parts)`. -/
def pyJoin (sep : String) : List String → String
  | [] => ""
  | [x] => x
  | x :: y :: rest => x ++ sep ++ pyJoin sep (y :: rest)

/-- Python `str.upper` (ASCII). -/
def pyUpper (s : String) : String := ⟨s.data.map Char.toUpper⟩

/-- Python `repr` of a list of strings, as produced by an f-string. -/
def pyListRepr (l : List String) : String :=
  "[" ++ pyJoin ", " (l.map (fun s => "'" ++ s ++ "'")) ++ "]"

/-- Python `repr` of a 2-tuple of numbers (a pandas `shape`). -/
def pyPairRepr (a b : Nat) : String :=
  "(" ++ toString a ++ ", " ++ toString b ++ ")"

/-- Numeric value of a digit string. -/
def digitsToNatAux (acc : Nat) : List Char → Nat
  | [] => acc
  | c :: rest => digitsToNatAux (acc * 10 + (c.toNat - '0'.toNat)) rest

/-- Numeric value of a digit string. -/
def digitsToNat (l : List Char) : Nat := digitsToNatAux 0 l

/-! ## A regular-expression engine

`icici_parser.py` classifies lines with `re.match` against five concrete
patterns.  We embed the patterns as syntax trees and decide matching with
Brzozowski derivatives; `prefMatch` is Python's `re.match` (match a
prefix), `fullMatch` is a `^...$` anchored match.
-/

/-- Regular expressions over characters. -/
inductive RE where
  | eps : RE
  | cls : (Char → Bool) → RE
  | seq : RE → RE → RE
  | alt : RE → RE → RE
  | star : RE → RE

/-- Whether `r` accepts the empty string. -/
def RE.nullable : RE → Bool
  | .eps => true
  | .cls _ => false
  | .seq a b => a.nullable && b.nullable
  | .alt a b => a.nullable || b.nullable
  | .star _ => true

/-- Brzozowski derivative of `r` by the character `c`. -/
def RE.deriv : RE → Char → RE
  | .eps, _ => .cls (fun _ => false)
  | .cls p, c => if p c then .eps else .cls (fun _ => false)
  | .seq a b, c =>
    if a.nullable then .alt (.seq (a.deriv c) b) (b.deriv c) else .seq (a.deriv c) b
  | .alt a b, c => .alt (a.deriv c) (b.deriv c)
  | .star a, c => .seq (a.deriv c) (.star a)

/-- Python `re.match`: some prefix of the input matches `r`. -/
def prefMatch : RE → List Char → Bool
  | r, [] => r.nullable
  | r, c :: cs => r.nullable || prefMatch (r.deriv c) cs

/-- Anchored (`^...$`) match: the whole input matches `r`. -/
def fullMatch (r : RE) (s : List Char) : Bool :=
  (s.foldl RE.deriv r).nullable

/-- `\d`. -/
def reDigit : RE := .cls Char.isDigit

/-- A literal character. -/
def reCh (c : Char) : RE := .cls (fun d => d = c)

/-- `r?`. -/
def reOpt (r : RE) : RE := .alt r .eps

/-- `.` (does not match a newline). -/
def reDot : RE := .cls (fun c => c ≠ '\n')

/-- `\d{2}`. -/
def reD2 : RE := .seq reDigit reDigit

/-- `\d{2}-\d{2}-\d{4}` — the date test `re.match(r'\d{2}-\d{2}-\d{4}', line)`. -/
def dateStartRe : RE :=
  .seq reD2 (.seq (reCh '-') (.seq reD2 (.seq (reCh '-') (.seq reD2 reD2))))

/-- `.*\d{2,3}.*` — the description test. -/
def descLineRe : RE :=
  .seq (.star reDot) (.seq (.seq reDigit (.seq reDigit (reOpt reDigit))) (.star reDot))

/-- `\d{1,3}(,\d{3})*\.?\d{0,2}` — the amount test (also the credit pattern). -/
def amountRe : RE :=
  .seq (.seq reDigit (reOpt (.seq reDigit (reOpt reDigit))))
    (.seq (.star (.seq (reCh ',') (.seq reDigit reD2)))
      (.seq (reOpt (reCh '.')) (reOpt (.seq reDigit (reOpt reDigit)))))

/-- `^\d+\.?\d{0,2}$` — the debit pattern. -/
def debitFullRe : RE :=
  .seq (.seq reDigit (.star reDigit))
    (.seq (reOpt (reCh '.')) (reOpt (.seq reDigit (reOpt reDigit))))

/-! ## The generated ICICI parser (`custom_parsers/icici_parser.py`)

`parse` opens the PDF with `pdfplumber` and extracts the page text; both
are external library calls, modelled as the `extractText` field of the
environment (an exception anywhere in extraction is an `Except.error`).
Python's `float` builtin is the `pyFloat` field.  Everything else —
whitespace cleaning, line splitting, the regex classification, the
`data` dictionary, the `DataFrame` construction and the final
`cumsum` — is translated from the source.
-/

namespace IciciParser

/-- External effects of `parse`: text extraction and `float`. -/
structure IciciEnv where
  extractText : Except String String
  pyFloat : String → Except String Rat

/-- The `data` dictionary built by the classification loop. -/
structure DataAcc where
  dates : List (Nat × Nat × Nat) := []
  descriptions : List String := []
  debitAmt : List Rat := []
  creditAmt : List Rat := []
  balance : List Rat := []
deriving DecidableEq

/-- The resulting pandas `DataFrame` (its five named columns). -/
structure DataFrame where
  dates : List (Nat × Nat × Nat)
  descriptions : List String
  debitAmt : List Rat
  creditAmt : List Rat
  balance : List Rat
deriving DecidableEq

/-- Python `str.replace(',', '')`. -/
def stripCommas (s : String) : String := ⟨s.data.filter (fun c => c ≠ ',')⟩

/-- Python `re.sub(r'\n', ' ', text)`. -/
def nlToSpace (s : String) : String :=
  ⟨s.data.map (fun c => if c = '\n' then ' ' else c)⟩

/-- Worker for `re.sub(r'\s+', ' ', text)`: collapse every whitespace run
to a single space. -/
def collapseWSList : List Char → List Char
  | [] => []
  | [c] => if wsChar c then [' '] else [c]
  | c :: d :: rest =>
    if wsChar c && wsChar d then collapseWSList (d :: rest)
    else (if wsChar c then ' ' else c) :: collapseWSList (d :: rest)

/-- Python `re.sub(r'\s+', ' ', text)`. -/
def collapseWS (s : String) : String := ⟨collapseWSList s.data⟩

/-- Day count of a month, with the Gregorian leap rule
(`datetime.date` validity). -/
def daysInMonth (y m : Nat) : Nat :=
  if m = 2 then (if (y % 4 = 0 ∧ y % 100 ≠ 0) ∨ y % 400 = 0 then 29 else 28)
  else if m = 4 ∨ m = 6 ∨ m = 9 ∨ m = 11 then 30 else 31

/-- `datetime.strptime(line, '%d-%m-%Y').date()`: `none` models the
`ValueError` raised when the whole string is not a valid zero-padded or
short day-month-year date. -/
def strptimeDMY (s : String) : Option (Nat × Nat × Nat) :=
  match pySplit "-" s with
  | [ds, ms, ys] =>
    if ds.data ≠ [] ∧ ds.data.length ≤ 2 ∧ ds.data.all Char.isDigit = true ∧
       ms.data ≠ [] ∧ ms.data.length ≤ 2 ∧ ms.data.all Char.isDigit = true ∧
       ys.data ≠ [] ∧ ys.data.length ≤ 4 ∧ ys.data.all Char.isDigit = true then
      if 1 ≤ digitsToNat ys.data ∧ 1 ≤ digitsToNat ms.data ∧
         digitsToNat ms.data ≤ 12 ∧ 1 ≤ digitsToNat ds.data ∧
         digitsToNat ds.data ≤ daysInMonth (digitsToNat ys.data) (digitsToNat ms.data) then
        some (digitsToNat ds.data, digitsToNat ms.data, digitsToNat ys.data)
      else none
    else none
  | _ => none

/-- One iteration of the `for line in lines` classification loop. -/
def classifyLine (pf : String → Except String Rat) (acc : DataAcc) (line : String) :
    Except String DataAcc :=
  if prefMatch dateStartRe line.data then
    match strptimeDMY line with
    | some d => Except.ok { acc with dates := acc.dates ++ [d] }
    | none =>
      Except.error ("time data '" ++ line ++ "' does not match format '%d-%m-%Y'")
  else if prefMatch descLineRe line.data then
    Except.ok { acc with descriptions := acc.descriptions ++ [line] }
  else if prefMatch amountRe line.data then
    match pf (stripCommas line) with
    | Except.error e => Except.error e
    | Except.ok amount =>
      if fullMatch debitFullRe line.data then
        Except.ok { acc with debitAmt := acc.debitAmt ++ [amount] }
      else if fullMatch amountRe line.data then
        Except.ok { acc with creditAmt := acc.creditAmt ++ [amount] }
      else Except.ok acc
  else Except.ok acc

/-- The whole classification loop. -/
def classifyLines (pf : String → Except String Rat) :
    List String → DataAcc → Except String DataAcc
  | [], acc => Except.ok acc
  | l :: rest, acc =>
    match classifyLine pf acc l with
    | Except.error e => Except.error e
    | Except.ok acc2 => classifyLines pf rest acc2

/-- `pd.DataFrame(data)`: raises `ValueError` unless all column lists have
the same length. -/
def mkDataFrame (acc : DataAcc) : Except String DataFrame :=
  if acc.descriptions.length = acc.dates.length ∧
     acc.debitAmt.length = acc.dates.length ∧
     acc.creditAmt.length = acc.dates.length ∧
     acc.balance.length = acc.dates.length then
    Except.ok ⟨acc.dates, acc.descriptions, acc.debitAmt, acc.creditAmt, acc.balance⟩
  else Except.error "All arrays must be of the same length"

/-- Running partial sums: `pandas.Series.cumsum`. -/
def cumsumFrom (acc : Rat) : List Rat → List Rat
  | [] => []
  | x :: xs => (acc + x) :: cumsumFrom (acc + x) xs

/-- `pandas.Series.cumsum`. -/
def pyCumsum (l : List Rat) : List Rat := cumsumFrom 0 l

/-- The `try:` block of `parse` (everything before the `except`). -/
def parseBody (env : IciciEnv) : Except String DataFrame :=
  match env.extractText with
  | Except.error e => Except.error e
  | Except.ok text =>
    match classifyLines env.pyFloat
        (pySplit "\n" (pyStrip (nlToSpace (collapseWS text)))) {} with
    | Except.error e => Except.error e
    | Except.ok acc =>
      match mkDataFrame acc with
      | Except.error e => Except.error e
      | Except.ok df => Except.ok { df with balance := pyCumsum df.creditAmt }

/-- `parse(pdf_path)`: the `except Exception` handler prints the error and
returns `None`. -/
def parse (env : IciciEnv) : Option DataFrame :=
  match parseBody env with
  | Except.ok df => some df
  | Except.error _ => none

end IciciParser

/-! ## The agent (`agent.py`)

`BankParserAgent.run` drives a retry loop of at most `max_attempts = 3`
plan → generate → test cycles.  The external world — `os.path.exists`,
the two `pd.read_csv` calls, the LLM chat completions, `json.dumps`, and
the inner machinery of `_test_phase` (import of the generated module, its
`parse` call, the expected-CSV read and the date/numeric validation) —
is an explicit `Env` record, indexed by the attempt number where the code
calls it once per attempt.  Python exceptions are `Except.error` carrying
`str(e)`.  The model additionally records an event trace (which phases
ran, with the exact generation prompt) and the list of file writes, so
that ordering and frame claims can be stated.
-/

namespace Agent

/-- A Python exception inside `_test_phase`: `except ImportError` is
handled separately from `except Exception`. -/
inductive PyExn where
  | importError : String → PyExn
  | err : String → PyExn
deriving DecidableEq

/-- Message of an exception (`str(e)`). -/
def PyExn.msg : PyExn → String
  | .importError m => m
  | .err m => m

/-- What `parser_module.parse(pdf_path)` returned: a DataFrame with its
column list and row count, or something that is not a DataFrame. -/
inductive ParseRes where
  | df : List String → Nat → ParseRes
  | notDF : ParseRes
deriving DecidableEq

/-- The external steps of one `_test_phase` call, in source order:
the `__import__`, the `parse` call, the `pd.read_csv` of the expected
CSV (its column list and row count), and the date/numeric validation
block. -/
structure TestIO where
  importR : Except PyExn Unit
  parseR : Except PyExn ParseRes
  csvR : Except PyExn (List String × Nat)
  validR : Except PyExn Unit

/-- The dict returned by `_test_phase`. -/
structure TestResults where
  success : Bool
  error : Option String := none
  message : Option String := none
deriving DecidableEq

/-- The two `except` handlers at the bottom of `_test_phase`. -/
def testExcept : PyExn → TestResults
  | .importError m => { success := false, error := some ("Failed to import parser: " ++ m) }
  | .err m => { success := false, error := some ("Parser execution failed: " ++ m) }

/-- `_test_phase`, translated from `agent.py` lines 295-361. -/
def test_phase (io : TestIO) : TestResults :=
  match io.importR with
  | Except.error e => testExcept e
  | Except.ok _ =>
    match io.parseR with
    | Except.error e => testExcept e
    | Except.ok res =>
      match io.csvR with
      | Except.error e => testExcept e
      | Except.ok ec =>
        match res with
        | ParseRes.notDF =>
          { success := false, error := some "Parser did not return a DataFrame" }
        | ParseRes.df cols nrows =>
          if cols ≠ ec.1 then
            { success := false,
              error := some ("Column mismatch. Expected: " ++ pyListRepr ec.1 ++
                ", Got: " ++ pyListRepr cols) }
          else if nrows = 0 then
            { success := false, error := some "Parser returned empty DataFrame" }
          else if cols.length = ec.1.length then
            match io.validR with
            | Except.ok _ =>
              { success := true,
                message := some ("Parser working correctly. Generated " ++
                  toString nrows ++ " transactions.") }
            | Except.error e =>
              { success := false, error := some ("Data validation failed: " ++ e.msg) }
          else
            { success := false,
              error := some ("DataFrame shape mismatch. Expected: " ++
                pyPairRepr ec.2 ec.1.length ++ ", Got: " ++
                pyPairRepr nrows cols.length) }

/-- The `AgentState` dataclass. -/
structure AgentState where
  target_bank : String
  pdf_path : String
  csv_path : String
  parser_path : String
  attempt : Nat := 0
  max_attempts : Nat := 3
  current_plan : Option (List String) := none
  generated_code : String := ""
  test_results : Option TestResults := none
  errors : List String := []
deriving DecidableEq, Inhabited

/-- Python truthiness of `state.current_plan` (`None` and `[]` are falsy). -/
def pyTruthyPlan : Option (List String) → Bool
  | none => false
  | some l => !l.isEmpty

/-- Trace events: an invocation of `_plan_phase`, an LLM code-generation
request (carrying the exact prompt), and a `_test_phase` run. -/
inductive Event where
  | planReq : Nat → Event
  | genReq : Nat → String → Event
  | testRun : Nat → Event
deriving DecidableEq

/-- The attempt an event belongs to. -/
def evAttempt : Event → Nat
  | .planReq a => a
  | .genReq a _ => a
  | .testRun a => a

/-- Position key of an event: attempts in order, and plan before
generate before test within an attempt. -/
def evKey : Event → Nat
  | .planReq a => 3 * a
  | .genReq a _ => 3 * a + 1
  | .testRun a => 3 * a + 2

/-- The external world of `run`, indexed by attempt number where the code
makes a fresh call on every attempt:

* `fileExists` — `os.path.exists`;
* `planPhase` — the outcome of `_plan_phase`: `error` is the re-raised
  `pd.read_csv` failure, `ok` the returned plan (an LLM failure inside
  `_plan_phase` is caught there and yields the fallback plan, so it is
  also an `ok`);
* `genCsv` — the `pd.read_csv(...).head(5).to_string()` at the top of
  `_generate_phase` (an exception propagates);
* `llmGen` — the LLM completion for a given generation prompt (the raw
  response text, or the re-raised exception);
* `planDump` — `json.dumps(state.current_plan, indent=2)`;
* `testIO` — the external steps of `_test_phase` at that attempt (on the
  fixed `pdf_path` / `csv_path` of the state). -/
structure Env where
  fileExists : String → Bool
  planPhase : Nat → Except String (List String)
  genCsv : Nat → Except String String
  llmGen : Nat → String → Except String String
  planDump : Option (List String) → String
  testIO : Nat → TestIO

/-- The `_test_phase` result at a given attempt. -/
def testResultAt (env : Env) (a : Nat) : TestResults := test_phase (env.testIO a)

/-- The string `"\n".join(state.errors) if state.errors else "None"`. -/
def previousErrors (errors : List String) : String :=
  if errors.isEmpty then "None" else pyJoin "\n" errors

/-- The part of the generation prompt f-string before the accumulated
errors. -/
def genPromptPre (bank csvSample planJson : String) : String :=
  "\n        Generate a complete Python parser for " ++ pyUpper bank ++
  " bank statements.\n        \n        Requirements:\n        - File: custom_parsers/" ++
  bank ++ "_parser.py\n        - Function: parse(pdf_path: str) -> pd.DataFrame\n" ++
  "        - Output must match this CSV format exactly:\n        \n        " ++
  csvSample ++ "\n        \n        Implementation Plan:\n        " ++ planJson ++
  "\n        \n        Previous Errors to Fix:\n        "

/-- The part of the generation prompt f-string after the accumulated
errors. -/
def genPromptSuf : String :=
  "\n        \n        Generate COMPLETE, WORKING Python code with:\n" ++
  "        1. All necessary imports\n        2. Robust error handling\n" ++
  "        3. Clear documentation\n        4. The exact parse() function signature\n" ++
  "        5. Data validation and cleaning\n        \n" ++
  "        Use libraries: pandas, PyPDF2 or pdfplumber, re, datetime\n        \n" ++
  "        Return ONLY the Python code, no explanations.\n        "

/-- The generation prompt f-string of `_generate_phase`. -/
def generatePrompt (bank csvSample planJson : String) (errors : List String) : String :=
  genPromptPre bank csvSample planJson ++ previousErrors errors ++ genPromptSuf

/-- The generation prompt built by `_generate_phase` from the state and
the CSV sample. -/
def genPromptOf (s : AgentState) (c : String) (env : Env) : String :=
  generatePrompt s.target_bank c (env.planDump s.current_plan) s.errors

/-- The fence-stripping loop at the end of `_generate_phase` (the
`for line in lines` loop toggling `in_code_block`). -/
def stripFence : List String → Bool → List String
  | [], _ => []
  | l :: rest, inBlock =>
    if pyStarts (pyStrip l) "```" then stripFence rest (!inBlock)
    else if inBlock || !(pyStarts (pyStrip l) "```") then l :: stripFence rest inBlock
    else stripFence rest inBlock

/-- The response clean-up of `_generate_phase` (markdown fence removal),
translated from `agent.py` lines 256-282. -/
def cleanCode (resp : String) : String :=
  let code := pyStrip resp
  let code :=
    if pyIn "```python" code then
      ((pySplit "```" ((pySplit "```python" code).getD 1 "")).getD 0 "")
    else if pyIn "```" code then
      (if 3 ≤ (pySplit "```" code).length then (pySplit "```" code).getD 1 "" else code)
    else code
  let code := pyStrip code
  if pyStarts code "```" then pyJoin "\n" (stripFence (pySplit "\n" code) false)
  else code

/-- Result of one loop iteration (or of a phase suffix of one): the
state after it, the events and file writes it produced, and whether it
returned `True`. -/
structure IterOut where
  state : AgentState
  events : List Event
  writes : List (String × String)
  success : Bool

/-- Step 3 of an attempt: `_test_phase` and the success check
(`agent.py` lines 120-127).  `_test_phase` never raises. -/
def runTest (env : Env) (s : AgentState) (a : Nat) (evs : List Event)
    (ws : List (String × String)) : IterOut :=
  if (testResultAt env a).success then
    ⟨{ s with test_results := some (testResultAt env a) }, evs ++ [Event.testRun a], ws, true⟩
  else
    ⟨{ s with
        test_results := some (testResultAt env a)
        errors := s.errors ++ [(testResultAt env a).error.getD "Unknown test failure"] },
      evs ++ [Event.testRun a], ws, false⟩

/-- Step 2 of an attempt: `_generate_phase` (`agent.py` lines 212-293):
read the CSV sample, build the prompt from the accumulated errors, call
the LLM, clean the response and write it to `state.parser_path`; an
exception is caught by the loop's `except`, which appends `str(e)`. -/
def runGen (env : Env) (s : AgentState) (a : Nat) (evs : List Event) : IterOut :=
  match env.genCsv a with
  | Except.error e => ⟨{ s with errors := s.errors ++ [e] }, evs, [], false⟩
  | Except.ok csvSample =>
    match env.llmGen a
        (generatePrompt s.target_bank csvSample (env.planDump s.current_plan) s.errors) with
    | Except.error e =>
      ⟨{ s with errors := s.errors ++ [e] },
        evs ++ [Event.genReq a
          (generatePrompt s.target_bank csvSample (env.planDump s.current_plan) s.errors)],
        [], false⟩
    | Except.ok resp =>
      runTest env { s with generated_code := cleanCode resp } a
        (evs ++ [Event.genReq a
          (generatePrompt s.target_bank csvSample (env.planDump s.current_plan) s.errors)])
        [(s.parser_path, cleanCode resp)]

/-- One iteration of the `for attempt in range(state.max_attempts)` loop
(`agent.py` lines 105-131): set `state.attempt`, run `_plan_phase` when
`state.current_plan` is falsy, then generate and test. -/
def runIter (env : Env) (s0 : AgentState) (a : Nat) : IterOut :=
  if pyTruthyPlan s0.current_plan then
    runGen env { s0 with attempt := a } a []
  else
    match env.planPhase a with
    | Except.error e =>
      ⟨{ s0 with attempt := a, errors := s0.errors ++ [e] }, [Event.planReq a], [], false⟩
    | Except.ok plan =>
      runGen env { s0 with attempt := a, current_plan := some plan } a [Event.planReq a]

/-- Outcome of the retry loop. -/
structure LoopOut where
  success : Bool
  state : AgentState
  events : List Event
  writes : List (String × String)
  iters : Nat

/-- The retry loop itself: run iterations `a, a+1, ...` while fuel lasts,
stopping at the first success. -/
def runLoop (env : Env) (s : AgentState) (a : Nat) : Nat → LoopOut
  | 0 => ⟨false, s, [], [], 0⟩
  | r + 1 =>
    let it := runIter env s a
    if it.success then ⟨true, it.state, it.events, it.writes, 1⟩
    else
      let rest := runLoop env it.state (a + 1) r
      ⟨rest.success, rest.state, it.events ++ rest.events, it.writes ++ rest.writes,
        rest.iters + 1⟩

/-- Outcome of `run`: result, final state (`none` when `run` returned
before entering the loop), trace and writes. -/
structure RunOut where
  success : Bool
  finalState : Option AgentState
  events : List Event
  writes : List (String × String)
  iterations : Nat

/-- The three candidate PDF locations tried by `run`. -/
def pdfCandidates (tb : String) : List String :=
  ["data/" ++ tb ++ "/" ++ tb ++ "_sample.pdf",
   "data/" ++ tb ++ "/" ++ tb ++ " sample.pdf",
   "ai-agent-challenge-main/data/" ++ tb ++ "/" ++ tb ++ " sample.pdf"]

/-- The `AgentState(...)` constructed by `run`. -/
def initState (tb pdf : String) : AgentState :=
  { target_bank := tb, pdf_path := pdf,
    csv_path := "data/" ++ tb ++ "/result.csv",
    parser_path := "custom_parsers/" ++ tb ++ "_parser.py" }

/-- `_validate_inputs`. -/
def validate_inputs (env : Env) (s : AgentState) : Bool :=
  env.fileExists s.pdf_path && env.fileExists s.csv_path

/-- `BankParserAgent.run` (`agent.py` lines 68-134): resolve the PDF
path, build the state, validate inputs, then the retry loop.
(`os.makedirs` creates a directory and writes no file.) -/
def run (env : Env) (tb : String) : RunOut :=
  match (pdfCandidates tb).find? env.fileExists with
  | none => ⟨false, none, [], [], 0⟩
  | some pdf =>
    if validate_inputs env (initState tb pdf) then
      let lo := runLoop env (initState tb pdf) 1 (initState tb pdf).max_attempts
      ⟨lo.success, some lo.state, lo.events, lo.writes, lo.iters⟩
    else ⟨false, none, [], [], 0⟩

/-- Replay a list of file writes over a file system. -/
def applyWrites (fs : String → Option String) : List (String × String) → (String → Option String)
  | [] => fs
  | (p, c) :: rest => applyWrites (fun q => if q = p then some c else fs q) rest

/-- Python's `or` on an optional string operand (`None` is falsy, `""` is
falsy). -/
def pyOrStr (a b : Option String) : Option String :=
  match a with
  | none => b
  | some s => if s.isEmpty then b else some s

/-- `self.api_key = "api_key" or os.getenv("GROQ_API_KEY")` in
`BankParserAgent.__init__` (the `api_key` parameter is never read). -/
def init_api_key (apiKeyArg : Option String) (groqEnvVar : Option String) : Option String :=
  pyOrStr (some "api_key") groqEnvVar

end Agent

/-! ## Auxiliary definitions for the statements -/

/-- `pat` occurs as a contiguous substring of `s`. -/
def strContains (s pat : String) : Prop :=
  ∃ pre post, s.data = pre ++ pat.data ++ post

namespace Agent

/-- The run-configuration fields of the state, which the loop never
changes. -/
def carriesCfg (s t : AgentState) : Prop :=
  t.target_bank = s.target_bank ∧ t.pdf_path = s.pdf_path ∧
  t.csv_path = s.csv_path ∧ t.parser_path = s.parser_path ∧
  t.max_attempts = s.max_attempts

/-- A world where every phase answers and every test fails on a column
mismatch: all three attempts run and fail. -/
def envFailAll : Env :=
  { fileExists := fun _ => true
    planPhase := fun _ => Except.ok ["step"]
    genCsv := fun _ => Except.ok "csv"
    llmGen := fun _ _ => Except.ok "code"
    planDump := fun _ => "plan"
    testIO := fun _ =>
      { importR := Except.ok ()
        parseR := Except.ok (ParseRes.df ["Date"] 1)
        csvR := Except.ok (["Amt"], 1)
        validR := Except.ok () } }

/-- A world where the first test succeeds. -/
def envSucc : Env :=
  { envFailAll with
    testIO := fun _ =>
      { importR := Except.ok ()
        parseR := Except.ok (ParseRes.df ["Date"] 2)
        csvR := Except.ok (["Date"], 2)
        validR := Except.ok () } }

/-- A world where the plan phase raises on every attempt and the
test-phase module load fails: every attempt hits the `except` handler. -/
def envExnAll : Env :=
  { envFailAll with
    planPhase := fun _ => Except.error "boom"
    testIO := fun _ =>
      { importR := Except.error (PyExn.importError "nope")
        parseR := Except.ok ParseRes.notDF
        csvR := Except.ok ([], 0)
        validR := Except.ok () } }

/-- Test-phase inputs that satisfy every check. -/
def ioGood : TestIO :=
  { importR := Except.ok ()
    parseR := Except.ok (ParseRes.df ["Date", "Balance"] 3)
    csvR := Except.ok (["Date", "Balance"], 3)
    validR := Except.ok () }

/-- Test-phase inputs where the parser returned an empty DataFrame. -/
def ioBad : TestIO :=
  { importR := Except.ok ()
    parseR := Except.ok (ParseRes.df ["Date"] 0)
    csvR := Except.ok (["Date"], 3)
    validR := Except.ok () }

/-- The empty file system. -/
def fsEmpty : String → Option String := fun _ => none

/-- The generation prompt produced on the second attempt of
`envFailAll` (one column-mismatch error accumulated). -/
def wPrompt : String :=
  generatePrompt "icici" "csv" "plan"
    ["Column mismatch. Expected: ['Amt'], Got: ['Date']"]

end Agent

namespace IciciParser

/-- Extraction succeeds with empty text. -/
def envEmpty : IciciEnv := ⟨Except.ok "", fun _ => Except.error "float err"⟩

/-- Extraction raises. -/
def envBoom : IciciEnv := ⟨Except.error "boom", fun _ => Except.error "x"⟩

end IciciParser

/-! ## Lemmas: strings and prompts -/

theorem strData_append (a b : String) : (a ++ b).data = a.data ++ b.data := by
  cases a; cases b; rfl

theorem pyJoin_mem_infix (sep e : String) :
    ∀ l : List String, e ∈ l → ∃ pre post, (pyJoin sep l).data = pre ++ e.data ++ post := by
  intro l
  induction l with
  | nil => intro h; exact absurd h (List.not_mem_nil e)
  | cons x xs ih =>
    intro h
    rcases List.mem_cons.mp h with rfl | hmem
    · cases xs with
      | nil => exact ⟨[], [], by simp [pyJoin]⟩
      | cons y ys =>
        exact ⟨[], (sep ++ pyJoin sep (y :: ys)).data,
          by simp [pyJoin, strData_append, List.append_assoc]⟩
    · cases xs with
      | nil => cases hmem
      | cons y ys =>
        rcases ih hmem with ⟨p, q, hpq⟩
        exact ⟨(x ++ sep).data ++ p, q,
          by simp [pyJoin, strData_append, hpq, List.append_assoc]⟩

namespace Agent

theorem generatePrompt_contains (bank csv plan : String) (errors : List String) (e : String)
    (he : e ∈ errors) : strContains (generatePrompt bank csv plan errors) e := by
  have hne : errors.isEmpty = false := by
    cases errors with
    | nil => cases he
    | cons x xs => rfl
  rcases pyJoin_mem_infix "\n" e errors he with ⟨p, q, hpq⟩
  refine ⟨(genPromptPre bank csv plan).data ++ p, q ++ genPromptSuf.data, ?_⟩
  simp [generatePrompt, previousErrors, hne, strData_append, hpq, List.append_assoc]

/-! ## Lemmas: the test step -/

theorem runTest_events (env : Env) (s : AgentState) (a : Nat) (evs : List Event)
    (ws : List (String × String)) :
    (runTest env s a evs ws).events = evs ++ [Event.testRun a] := by
  unfold runTest; split <;> rfl

theorem runTest_writes (env : Env) (s : AgentState) (a : Nat) (evs : List Event)
    (ws : List (String × String)) : (runTest env s a evs ws).writes = ws := by
  unfold runTest; split <;> rfl

theorem runTest_success_eq (env : Env) (s : AgentState) (a : Nat) (evs : List Event)
    (ws : List (String × String)) :
    (runTest env s a evs ws).success = (testResultAt env a).success := by
  unfold runTest; split <;> simp_all

theorem runTest_cfg (env : Env) (s : AgentState) (a : Nat) (evs : List Event)
    (ws : List (String × String)) : carriesCfg s (runTest env s a evs ws).state := by
  unfold runTest carriesCfg; split <;> simp

theorem runTest_attempt (env : Env) (s : AgentState) (a : Nat) (evs : List Event)
    (ws : List (String × String)) : (runTest env s a evs ws).state.attempt = s.attempt := by
  unfold runTest; split <;> rfl

theorem runTest_errors_of_success (env : Env) (s : AgentState) (a : Nat) (evs : List Event)
    (ws : List (String × String)) (h : (testResultAt env a).success = true) :
    (runTest env s a evs ws).state.errors = s.errors := by
  simp [runTest, h]

theorem runTest_errors_of_fail (env : Env) (s : AgentState) (a : Nat) (evs : List Event)
    (ws : List (String × String)) (h : (testResultAt env a).success = false) :
    (runTest env s a evs ws).state.errors =
      s.errors ++ [(testResultAt env a).error.getD "Unknown test failure"] := by
  simp [runTest, h]

/-! ## Lemmas: case analyses of the generate step and of one iteration -/

theorem runGen_cases (env : Env) (s : AgentState) (a : Nat) (evs : List Event) :
    (∃ e, env.genCsv a = Except.error e ∧
      runGen env s a evs = ⟨{ s with errors := s.errors ++ [e] }, evs, [], false⟩)
  ∨ (∃ c e, env.genCsv a = Except.ok c ∧
      env.llmGen a (genPromptOf s c env) = Except.error e ∧
      runGen env s a evs =
        ⟨{ s with errors := s.errors ++ [e] },
          evs ++ [Event.genReq a (genPromptOf s c env)], [], false⟩)
  ∨ (∃ c resp, env.genCsv a = Except.ok c ∧
      env.llmGen a (genPromptOf s c env) = Except.ok resp ∧
      runGen env s a evs =
        runTest env { s with generated_code := cleanCode resp } a
          (evs ++ [Event.genReq a (genPromptOf s c env)])
          [(s.parser_path, cleanCode resp)]) := by
  cases h1 : env.genCsv a with
  | error e => exact Or.inl ⟨e, rfl, by simp [runGen, h1]⟩
  | ok c =>
    cases h2 : env.llmGen a (genPromptOf s c env) with
    | error e =>
      exact Or.inr (Or.inl ⟨c, e, rfl, h2, by simp [runGen, h1, genPromptOf] at h2 ⊢; simp [h2]⟩)
    | ok resp =>
      exact Or.inr (Or.inr ⟨c, resp, rfl, h2, by simp [runGen, h1, genPromptOf] at h2 ⊢; simp [h2]⟩)

theorem runIter_cases (env : Env) (s0 : AgentState) (a : Nat) :
    (pyTruthyPlan s0.current_plan = true ∧
      runIter env s0 a = runGen env { s0 with attempt := a } a [])
  ∨ (pyTruthyPlan s0.current_plan = false ∧ ∃ e, env.planPhase a = Except.error e ∧
      runIter env s0 a =
        ⟨{ s0 with attempt := a, errors := s0.errors ++ [e] }, [Event.planReq a], [], false⟩)
  ∨ (pyTruthyPlan s0.current_plan = false ∧ ∃ plan, env.planPhase a = Except.ok plan ∧
      runIter env s0 a =
        runGen env { s0 with attempt := a, current_plan := some plan } a [Event.planReq a]) := by
  cases hp : pyTruthyPlan s0.current_plan with
  | true => exact Or.inl ⟨rfl, by simp [runIter, hp]⟩
  | false =>
    cases h1 : env.planPhase a with
    | error e => exact Or.inr (Or.inl ⟨rfl, e, rfl, by simp [runIter, hp, h1]⟩)
    | ok plan => exact Or.inr (Or.inr ⟨rfl, plan, rfl, by simp [runIter, hp, h1]⟩)

end Agent

namespace Agent

/-! ## Lemmas: one iteration -/

theorem carriesCfg_refl (s : AgentState) : carriesCfg s s := by
  simp [carriesCfg]

theorem carriesCfg_trans {s t u : AgentState} (h1 : carriesCfg s t) (h2 : carriesCfg t u) :
    carriesCfg s u := by
  obtain ⟨a1, a2, a3, a4, a5⟩ := h1
  obtain ⟨b1, b2, b3, b4, b5⟩ := h2
  exact ⟨b1.trans a1, b2.trans a2, b3.trans a3, b4.trans a4, b5.trans a5⟩

theorem runGen_cfg (env : Env) (s : AgentState) (a : Nat) (evs : List Event) :
    carriesCfg s (runGen env s a evs).state := by
  rcases runGen_cases env s a evs with ⟨e, _, hr⟩ | ⟨c, e, _, _, hr⟩ | ⟨c, resp, _, _, hr⟩ <;>
    rw [hr]
  · simp [carriesCfg]
  · simp [carriesCfg]
  · exact carriesCfg_trans (by simp [carriesCfg]) (runTest_cfg env _ a _ _)

theorem runGen_attempt (env : Env) (s : AgentState) (a : Nat) (evs : List Event) :
    (runGen env s a evs).state.attempt = s.attempt := by
  rcases runGen_cases env s a evs with ⟨e, _, hr⟩ | ⟨c, e, _, _, hr⟩ | ⟨c, resp, _, _, hr⟩ <;>
    rw [hr]
  all_goals rw [runTest_attempt]

theorem runIter_cfg (env : Env) (s0 : AgentState) (a : Nat) :
    carriesCfg s0 (runIter env s0 a).state := by
  rcases runIter_cases env s0 a with ⟨_, hr⟩ | ⟨_, e, _, hr⟩ | ⟨_, plan, _, hr⟩ <;> rw [hr]
  · exact carriesCfg_trans (by simp [carriesCfg]) (runGen_cfg env _ a _)
  · simp [carriesCfg]
  · exact carriesCfg_trans (by simp [carriesCfg]) (runGen_cfg env _ a _)

theorem runIter_attempt (env : Env) (s0 : AgentState) (a : Nat) :
    (runIter env s0 a).state.attempt = a := by
  rcases runIter_cases env s0 a with ⟨_, hr⟩ | ⟨_, e, _, hr⟩ | ⟨_, plan, _, hr⟩ <;> rw [hr]
  all_goals rw [runGen_attempt]

theorem runIter_events_enum (env : Env) (s0 : AgentState) (a : Nat) :
    ((runIter env s0 a).events = [] ∧ (runIter env s0 a).success = false)
  ∨ ((runIter env s0 a).events = [Event.planReq a] ∧ (runIter env s0 a).success = false)
  ∨ (∃ p, (runIter env s0 a).events = [Event.genReq a p] ∧ (runIter env s0 a).success = false)
  ∨ (∃ p, (runIter env s0 a).events = [Event.planReq a, Event.genReq a p] ∧
      (runIter env s0 a).success = false)
  ∨ (∃ p, ((runIter env s0 a).events = [Event.genReq a p, Event.testRun a] ∨
        (runIter env s0 a).events = [Event.planReq a, Event.genReq a p, Event.testRun a]) ∧
      (runIter env s0 a).success = (testResultAt env a).success) := by
  rcases runIter_cases env s0 a with ⟨_, hr⟩ | ⟨_, e, _, hr⟩ | ⟨_, plan, _, hr⟩
  · rcases runGen_cases env { s0 with attempt := a } a [] with
      ⟨e, hc, hg⟩ | ⟨c, e, hc, hl, hg⟩ | ⟨c, resp, hc, hl, hg⟩
    · exact Or.inl (by rw [hr, hg]; exact ⟨rfl, rfl⟩)
    · exact Or.inr (Or.inr (Or.inl
        ⟨genPromptOf { s0 with attempt := a } c env, by rw [hr, hg]; exact ⟨rfl, rfl⟩⟩))
    · exact Or.inr (Or.inr (Or.inr (Or.inr
        ⟨genPromptOf { s0 with attempt := a } c env,
          Or.inl (by rw [hr, hg, runTest_events]; simp),
          by rw [hr, hg, runTest_success_eq]⟩)))
  · exact Or.inr (Or.inl (by rw [hr]; exact ⟨rfl, rfl⟩))
  · rcases runGen_cases env { s0 with attempt := a, current_plan := some plan } a
        [Event.planReq a] with ⟨e, hc, hg⟩ | ⟨c, e, hc, hl, hg⟩ | ⟨c, resp, hc, hl, hg⟩
    · exact Or.inr (Or.inl (by rw [hr, hg]; exact ⟨rfl, rfl⟩))
    · exact Or.inr (Or.inr (Or.inr (Or.inl
        ⟨genPromptOf { s0 with attempt := a, current_plan := some plan } c env,
          by rw [hr, hg]; exact ⟨rfl, rfl⟩⟩)))
    · exact Or.inr (Or.inr (Or.inr (Or.inr
        ⟨genPromptOf { s0 with attempt := a, current_plan := some plan } c env,
          Or.inr (by rw [hr, hg, runTest_events]; simp),
          by rw [hr, hg, runTest_success_eq]⟩)))

theorem runIter_events_attempt (env : Env) (s0 : AgentState) (a : Nat) :
    ∀ ev ∈ (runIter env s0 a).events, evAttempt ev = a := by
  rcases runIter_events_enum env s0 a with
    ⟨he, _⟩ | ⟨he, _⟩ | ⟨p, he, _⟩ | ⟨p, he, _⟩ | ⟨p, he | he, _⟩ <;>
      rw [he] <;> intro ev hev <;> simp at hev <;>
      first
      | (rcases hev with rfl | rfl | rfl; all_goals rfl)
      | (rcases hev with rfl | rfl; all_goals rfl)
      | (rcases hev with rfl; rfl)

theorem runIter_events_chain (env : Env) (s0 : AgentState) (a : Nat) :
    List.Chain' (fun x y => evKey x < evKey y) (runIter env s0 a).events := by
  rcases runIter_events_enum env s0 a with
    ⟨he, _⟩ | ⟨he, _⟩ | ⟨p, he, _⟩ | ⟨p, he, _⟩ | ⟨p, he | he, _⟩ <;>
      rw [he] <;> simp [evKey] <;> omega

theorem runIter_success_last (env : Env) (s0 : AgentState) (a : Nat)
    (h : (runIter env s0 a).success = true) :
    (runIter env s0 a).events.getLast? = some (Event.testRun a) ∧
      (testResultAt env a).success = true := by
  rcases runIter_events_enum env s0 a with
    ⟨he, hs⟩ | ⟨he, hs⟩ | ⟨p, he, hs⟩ | ⟨p, he, hs⟩ | ⟨p, he | he, hs⟩ <;>
      first
      | (rw [hs] at h; cases h)
      | (rw [he]; exact ⟨rfl, by rw [← hs, h]⟩)

theorem runIter_last_inv (env : Env) (s0 : AgentState) (a : Nat) (b : Nat)
    (h : (runIter env s0 a).events.getLast? = some (Event.testRun b)) :
    b = a ∧ (runIter env s0 a).success = (testResultAt env a).success := by
  rcases runIter_events_enum env s0 a with
    ⟨he, hs⟩ | ⟨he, hs⟩ | ⟨p, he, hs⟩ | ⟨p, he, hs⟩ | ⟨p, he | he, hs⟩ <;>
      rw [he] at h <;> simp at h
  · exact ⟨h.symm ▸ rfl, hs⟩
  · exact ⟨h.symm ▸ rfl, hs⟩

end Agent

namespace Agent

theorem runIter_errors (env : Env) (s0 : AgentState) (a : Nat) :
    ((runIter env s0 a).success = false → ∃ e, (runIter env s0 a).state.errors = s0.errors ++ [e])
  ∧ ((runIter env s0 a).success = true → (runIter env s0 a).state.errors = s0.errors) := by
  have main : ∀ (s : AgentState) (evs : List Event), s.errors = s0.errors →
      ((runGen env s a evs).success = false →
        ∃ e, (runGen env s a evs).state.errors = s0.errors ++ [e])
    ∧ ((runGen env s a evs).success = true → (runGen env s a evs).state.errors = s0.errors) := by
    intro s evs hse
    rcases runGen_cases env s a evs with ⟨e, hc, hg⟩ | ⟨c, e, hc, hl, hg⟩ | ⟨c, resp, hc, hl, hg⟩ <;>
      rw [hg]
    · exact ⟨fun _ => ⟨e, by simp [hse]⟩, fun h => by cases h⟩
    · exact ⟨fun _ => ⟨e, by simp [hse]⟩, fun h => by cases h⟩
    · rw [runTest_success_eq]
      cases hts : (testResultAt env a).success with
      | true =>
        exact ⟨(fun h => by cases h),
          (fun _ => by rw [runTest_errors_of_success env _ a _ _ hts]; exact hse)⟩
      | false =>
        refine ⟨fun _ => ⟨(testResultAt env a).error.getD "Unknown test failure", ?_⟩,
          fun h => by cases h⟩
        rw [runTest_errors_of_fail env _ a _ _ hts]; simp [hse]
  rcases runIter_cases env s0 a with ⟨_, hr⟩ | ⟨_, e, _, hr⟩ | ⟨_, plan, _, hr⟩ <;> rw [hr]
  · exact main _ _ rfl
  · exact ⟨fun _ => ⟨e, by simp⟩, fun h => by cases h⟩
  · exact main _ _ rfl

theorem runIter_test_err (env : Env) (s0 : AgentState) (a : Nat)
    (hmem : Event.testRun a ∈ (runIter env s0 a).events)
    (hf : (runIter env s0 a).success = false) :
    (runIter env s0 a).state.errors =
      s0.errors ++ [(testResultAt env a).error.getD "Unknown test failure"] := by
  have main : ∀ (s : AgentState) (evs : List Event), s.errors = s0.errors →
      Event.testRun a ∈ (runGen env s a evs).events →
      (∀ ev ∈ evs, evAttempt ev = a ∧ ∀ b, ev ≠ Event.testRun b) →
      (runGen env s a evs).success = false →
      (runGen env s a evs).state.errors =
        s0.errors ++ [(testResultAt env a).error.getD "Unknown test failure"] := by
    intro s evs hse hmem hevs hf
    rcases runGen_cases env s a evs with ⟨e, hc, hg⟩ | ⟨c, e, hc, hl, hg⟩ | ⟨c, resp, hc, hl, hg⟩ <;>
      rw [hg] at hmem hf ⊢
    · exact absurd rfl ((hevs _ hmem).2 a)
    · rcases List.mem_append.mp hmem with h | h
      · exact absurd rfl ((hevs _ h).2 a)
      · simp at h
    · rw [runTest_success_eq] at hf
      rw [runTest_errors_of_fail env _ a _ _ hf]; simp [hse]
  rcases runIter_cases env s0 a with ⟨_, hr⟩ | ⟨_, e, _, hr⟩ | ⟨_, plan, _, hr⟩ <;>
    rw [hr] at hmem hf ⊢
  · exact main _ _ rfl hmem (by intro ev hev; simp at hev) hf
  · simp at hmem
  · refine main _ _ rfl hmem ?_ hf
    intro ev hev
    simp at hev
    subst hev
    exact ⟨rfl, by intro b h; cases h⟩

theorem runIter_genReq_contains (env : Env) (s0 : AgentState) (a : Nat) :
    ∀ b p, Event.genReq b p ∈ (runIter env s0 a).events →
      ∀ e ∈ s0.errors, strContains p e := by
  have main : ∀ (s : AgentState) (evs : List Event), s.errors = s0.errors →
      (∀ b p, ¬ Event.genReq b p ∈ evs) →
      ∀ b p, Event.genReq b p ∈ (runGen env s a evs).events →
        ∀ e ∈ s0.errors, strContains p e := by
    intro s evs hse hevs b p hmem e he
    rcases runGen_cases env s a evs with ⟨e1, hc, hg⟩ | ⟨c, e1, hc, hl, hg⟩ | ⟨c, resp, hc, hl, hg⟩ <;>
      rw [hg] at hmem
    · exact absurd hmem (hevs b p)
    · rcases List.mem_append.mp hmem with h | h
      · exact absurd h (hevs b p)
      · simp at h
        rw [h.2, genPromptOf]
        exact generatePrompt_contains _ _ _ _ e (hse.symm ▸ he)
    · rw [runTest_events] at hmem
      rcases List.mem_append.mp hmem with h | h
      · rcases List.mem_append.mp h with h2 | h2
        · exact absurd h2 (hevs b p)
        · simp at h2
          rw [h2.2, genPromptOf]
          exact generatePrompt_contains _ _ _ _ e (hse.symm ▸ he)
      · simp at h
  intro b p hmem e he
  rcases runIter_cases env s0 a with ⟨_, hr⟩ | ⟨_, e1, _, hr⟩ | ⟨_, plan, _, hr⟩ <;>
    rw [hr] at hmem
  · exact main { s0 with attempt := a } [] rfl (by intro b p h; simp at h) b p hmem e he
  · simp at hmem
  · exact main { s0 with attempt := a, current_plan := some plan } [Event.planReq a] rfl
      (by intro b p h; simp at h) b p hmem e he

theorem runIter_writes (env : Env) (s0 : AgentState) (a : Nat) :
    ∀ w ∈ (runIter env s0 a).writes, w.1 = s0.parser_path := by
  have main : ∀ (s : AgentState) (evs : List Event), s.parser_path = s0.parser_path →
      ∀ w ∈ (runGen env s a evs).writes, w.1 = s0.parser_path := by
    intro s evs hsp w hmem
    rcases runGen_cases env s a evs with ⟨e, hc, hg⟩ | ⟨c, e, hc, hl, hg⟩ | ⟨c, resp, hc, hl, hg⟩ <;>
      rw [hg] at hmem
    · simp at hmem
    · simp at hmem
    · rw [runTest_writes] at hmem
      simp at hmem
      rw [hmem]
      exact hsp
  intro w hmem
  rcases runIter_cases env s0 a with ⟨_, hr⟩ | ⟨_, e, _, hr⟩ | ⟨_, plan, _, hr⟩ <;>
    rw [hr] at hmem
  · exact main { s0 with attempt := a } [] rfl w hmem
  · simp at hmem
  · exact main { s0 with attempt := a, current_plan := some plan } [Event.planReq a] rfl w hmem

theorem runIter_head (env : Env) (s0 : AgentState) (a : Nat)
    (h : pyTruthyPlan s0.current_plan = false) :
    (runIter env s0 a).events.head? = some (Event.planReq a) := by
  have main : ∀ (s : AgentState) (tail : List Event),
      (runGen env s a (Event.planReq a :: tail)).events.head? = some (Event.planReq a) := by
    intro s tail
    rcases runGen_cases env s a (Event.planReq a :: tail) with
      ⟨e, hc, hg⟩ | ⟨c, e, hc, hl, hg⟩ | ⟨c, resp, hc, hl, hg⟩ <;> rw [hg]
    · rfl
    · rfl
    · rw [runTest_events]; rfl
  rcases runIter_cases env s0 a with ⟨ht, hr⟩ | ⟨_, e, _, hr⟩ | ⟨_, plan, _, hr⟩ <;> rw [hr]
  · rw [ht] at h; cases h
  · rfl
  · exact main _ []

theorem runIter_no_exn (env : Env) (s0 : AgentState) (a : Nat)
    (hp : ∀ e, env.planPhase a ≠ Except.error e)
    (hg : ∀ e, env.genCsv a ≠ Except.error e)
    (hl : ∀ p e, env.llmGen a p ≠ Except.error e) :
    (∃ p, Event.genReq a p ∈ (runIter env s0 a).events) ∧
      Event.testRun a ∈ (runIter env s0 a).events := by
  have main : ∀ (s : AgentState) (evs : List Event),
      (∃ p, Event.genReq a p ∈ (runGen env s a evs).events) ∧
        Event.testRun a ∈ (runGen env s a evs).events := by
    intro s evs
    rcases runGen_cases env s a evs with ⟨e, hc, hge⟩ | ⟨c, e, hc, hle, hge⟩ | ⟨c, resp, hc, hle, hge⟩
    · exact absurd hc (hg e)
    · exact absurd hle (hl _ e)
    · rw [hge, runTest_events]
      exact ⟨⟨genPromptOf s c env, by simp⟩, by simp⟩
  rcases runIter_cases env s0 a with ⟨_, hr⟩ | ⟨_, e, hpe, hr⟩ | ⟨_, plan, _, hr⟩ <;> rw [hr]
  · exact main _ _
  · exact absurd hpe (hp e)
  · exact main _ _

end Agent

theorem headOfAppend {α : Type} (l1 l2 : List α) (x : α) (h : l1.head? = some x) :
    (l1 ++ l2).head? = some x := by
  cases l1 with
  | nil => cases h
  | cons a t => exact h

theorem lastOfAppend {α : Type} (l1 l2 : List α) (h : l2 ≠ []) :
    (l1 ++ l2).getLast? = l2.getLast? := by
  induction l1 with
  | nil => rfl
  | cons a t ih =>
    rw [List.cons_append, List.getLast?_cons, ih]
    cases l2 with
    | nil => exact absurd rfl h
    | cons b u => simp [List.getLast?_cons]

namespace Agent

/-! ## Lemmas: the retry loop -/

theorem runLoop_zero (env : Env) (s : AgentState) (a : Nat) :
    runLoop env s a 0 = ⟨false, s, [], [], 0⟩ := rfl

theorem runLoop_succ (env : Env) (s : AgentState) (a n : Nat) :
    runLoop env s a (n + 1) =
      if (runIter env s a).success then
        ⟨true, (runIter env s a).state, (runIter env s a).events, (runIter env s a).writes, 1⟩
      else
        ⟨(runLoop env (runIter env s a).state (a + 1) n).success,
         (runLoop env (runIter env s a).state (a + 1) n).state,
         (runIter env s a).events ++ (runLoop env (runIter env s a).state (a + 1) n).events,
         (runIter env s a).writes ++ (runLoop env (runIter env s a).state (a + 1) n).writes,
         (runLoop env (runIter env s a).state (a + 1) n).iters + 1⟩ := rfl

theorem runLoop_events_attempt (env : Env) :
    ∀ (r : Nat) (s : AgentState) (a : Nat), ∀ ev ∈ (runLoop env s a r).events,
      a ≤ evAttempt ev ∧ evAttempt ev < a + r := by
  intro r
  induction r with
  | zero => intro s a ev hev; rw [runLoop_zero] at hev; cases hev
  | succ n ih =>
    intro s a ev hev
    rw [runLoop_succ] at hev
    by_cases hs : (runIter env s a).success = true
    · rw [if_pos hs] at hev
      have := runIter_events_attempt env s a ev hev
      omega
    · rw [if_neg hs] at hev
      rcases List.mem_append.mp hev with h | h
      · have := runIter_events_attempt env s a ev h
        omega
      · have := ih (runIter env s a).state (a + 1) ev h
        omega

theorem runLoop_iters_le (env : Env) :
    ∀ (r : Nat) (s : AgentState) (a : Nat), (runLoop env s a r).iters ≤ r := by
  intro r
  induction r with
  | zero => intro s a; rw [runLoop_zero]
  | succ n ih =>
    intro s a
    rw [runLoop_succ]
    by_cases hs : (runIter env s a).success = true
    · rw [if_pos hs]; dsimp only; omega
    · rw [if_neg hs]
      have := ih (runIter env s a).state (a + 1)
      dsimp only
      omega

theorem runLoop_cfg (env : Env) :
    ∀ (r : Nat) (s : AgentState) (a : Nat), carriesCfg s (runLoop env s a r).state := by
  intro r
  induction r with
  | zero => intro s a; rw [runLoop_zero]; exact carriesCfg_refl s
  | succ n ih =>
    intro s a
    rw [runLoop_succ]
    by_cases hs : (runIter env s a).success = true
    · rw [if_pos hs]; exact runIter_cfg env s a
    · rw [if_neg hs]
      exact carriesCfg_trans (runIter_cfg env s a) (ih (runIter env s a).state (a + 1))

theorem runLoop_writes (env : Env) :
    ∀ (r : Nat) (s : AgentState) (a : Nat), ∀ w ∈ (runLoop env s a r).writes,
      w.1 = s.parser_path := by
  intro r
  induction r with
  | zero => intro s a w hw; rw [runLoop_zero] at hw; cases hw
  | succ n ih =>
    intro s a w hw
    rw [runLoop_succ] at hw
    by_cases hs : (runIter env s a).success = true
    · rw [if_pos hs] at hw
      exact runIter_writes env s a w hw
    · rw [if_neg hs] at hw
      rcases List.mem_append.mp hw with h | h
      · exact runIter_writes env s a w h
      · have hp : (runIter env s a).state.parser_path = s.parser_path :=
          (runIter_cfg env s a).2.2.2.1
        rw [← hp]
        exact ih (runIter env s a).state (a + 1) w h

theorem runLoop_attempt_bound (env : Env) :
    ∀ (r : Nat) (s : AgentState) (a : Nat), 0 < r →
      a ≤ (runLoop env s a r).state.attempt ∧ (runLoop env s a r).state.attempt < a + r := by
  intro r
  induction r with
  | zero => intro s a h; cases h
  | succ n ih =>
    intro s a _
    rw [runLoop_succ]
    by_cases hs : (runIter env s a).success = true
    · rw [if_pos hs]
      rw [runIter_attempt]
      omega
    · rw [if_neg hs]
      cases n with
      | zero =>
        rw [runLoop_zero]
        dsimp only
        rw [runIter_attempt]
        omega
      | succ m =>
        have := ih (runIter env s a).state (a + 1) (Nat.succ_pos m)
        dsimp only
        omega

theorem runLoop_errlen (env : Env) :
    ∀ (r : Nat) (s : AgentState) (a : Nat),
      (runLoop env s a r).state.errors.length +
          (if (runLoop env s a r).success = true then 1 else 0) =
        s.errors.length + (runLoop env s a r).iters := by
  intro r
  induction r with
  | zero => intro s a; rw [runLoop_zero]; simp
  | succ n ih =>
    intro s a
    rw [runLoop_succ]
    by_cases hs : (runIter env s a).success = true
    · rw [if_pos hs]
      have herr := (runIter_errors env s a).2 hs
      simp [herr]
    · rw [if_neg hs]
      rcases (runIter_errors env s a).1 (Bool.not_eq_true _ ▸ hs) with ⟨e, herr⟩
      have := ih (runIter env s a).state (a + 1)
      rw [herr] at this
      simp only [List.length_append, List.length_singleton] at this
      simp only []
      omega

theorem runLoop_all_fail (env : Env) (hall : ∀ b, (testResultAt env b).success = false) :
    ∀ (r : Nat) (s : AgentState) (a : Nat),
      (runLoop env s a r).iters = r ∧ (runLoop env s a r).success = false := by
  intro r
  induction r with
  | zero => intro s a; rw [runLoop_zero]; exact ⟨rfl, rfl⟩
  | succ n ih =>
    intro s a
    rw [runLoop_succ]
    by_cases hs : (runIter env s a).success = true
    · exact absurd ((runIter_success_last env s a hs).2) (by rw [hall a]; simp)
    · rw [if_neg hs]
      have := ih (runIter env s a).state (a + 1)
      exact ⟨by simp [this.1], this.2⟩

end Agent

namespace Agent

theorem memOfGetLast? {α : Type} {l : List α} {x : α} (h : x ∈ l.getLast?) : x ∈ l := by
  rcases List.mem_getLast?_eq_getLast h with ⟨hne, rfl⟩
  exact List.getLast_mem hne

theorem memOfHead? {α : Type} {l : List α} {x : α} (h : x ∈ l.head?) : x ∈ l := by
  cases l with
  | nil => cases h
  | cons a t =>
    have hx : a = x := by simpa using h
    simp [← hx]

theorem evKey_bounds (ev : Event) :
    3 * evAttempt ev ≤ evKey ev ∧ evKey ev ≤ 3 * evAttempt ev + 2 := by
  cases ev <;> simp [evKey, evAttempt] <;> omega

theorem runLoop_chain (env : Env) :
    ∀ (r : Nat) (s : AgentState) (a : Nat),
      List.Chain' (fun x y => evKey x < evKey y) (runLoop env s a r).events := by
  intro r
  induction r with
  | zero => intro s a; rw [runLoop_zero]; exact List.chain'_nil
  | succ n ih =>
    intro s a
    rw [runLoop_succ]
    by_cases hs : (runIter env s a).success = true
    · rw [if_pos hs]; exact runIter_events_chain env s a
    · rw [if_neg hs]
      dsimp only
      refine List.Chain'.append (runIter_events_chain env s a)
        (ih (runIter env s a).state (a + 1)) ?_
      intro x hx y hy
      have hx' : x ∈ (runIter env s a).events := memOfGetLast? hx
      have hy' : y ∈ (runLoop env (runIter env s a).state (a + 1) n).events :=
        memOfHead? hy
      have h1 := runIter_events_attempt env s a x hx'
      have h2 := (runLoop_events_attempt env n (runIter env s a).state (a + 1) y hy').1
      have b1 := evKey_bounds x
      have b2 := evKey_bounds y
      omega

theorem runLoop_success_iff (env : Env) :
    ∀ (r : Nat) (s : AgentState) (a : Nat),
      (runLoop env s a r).success = true ↔
        ∃ b, (runLoop env s a r).events.getLast? = some (Event.testRun b) ∧
          (testResultAt env b).success = true := by
  intro r
  induction r with
  | zero => intro s a; rw [runLoop_zero]; simp
  | succ n ih =>
    intro s a
    rw [runLoop_succ]
    by_cases hs : (runIter env s a).success = true
    · rw [if_pos hs]
      dsimp only
      constructor
      · intro _
        rcases runIter_success_last env s a hs with ⟨hlast, hok⟩
        exact ⟨a, hlast, hok⟩
      · intro _; rfl
    · rw [if_neg hs]
      dsimp only
      have hf : (runIter env s a).success = false := by
        cases h : (runIter env s a).success
        · rfl
        · exact absurd h hs
      constructor
      · intro hsucc
        rcases (ih (runIter env s a).state (a + 1)).mp hsucc with ⟨b, hlast, hok⟩
        refine ⟨b, ?_, hok⟩
        rw [lastOfAppend]
        · exact hlast
        · intro hnil; rw [hnil] at hlast; cases hlast
      · rintro ⟨b, hlast, hok⟩
        by_cases hre : (runLoop env (runIter env s a).state (a + 1) n).events = []
        · rw [hre, List.append_nil] at hlast
          rcases runIter_last_inv env s a b hlast with ⟨rfl, hseq⟩
          rw [hok] at hseq
          exact absurd hseq hs
        · rw [lastOfAppend _ _ hre] at hlast
          exact (ih (runIter env s a).state (a + 1)).mpr ⟨b, hlast, hok⟩

theorem runLoop_head (env : Env) (r : Nat) (s : AgentState) (a : Nat)
    (hcp : pyTruthyPlan s.current_plan = false) (hr : 0 < r) :
    (runLoop env s a r).events.head? = some (Event.planReq a) := by
  cases r with
  | zero => cases hr
  | succ n =>
    rw [runLoop_succ]
    by_cases hs : (runIter env s a).success = true
    · rw [if_pos hs]; exact runIter_head env s a hcp
    · rw [if_neg hs]
      dsimp only
      exact headOfAppend _ _ _ (runIter_head env s a hcp)

theorem runLoop_contains (env : Env) :
    ∀ (r : Nat) (s : AgentState) (a : Nat) (b : Nat) (p : String),
      Event.genReq b p ∈ (runLoop env s a r).events →
        (∀ e ∈ s.errors, strContains p e) ∧
        (∀ a1, Event.testRun a1 ∈ (runLoop env s a r).events → a1 < b →
          (testResultAt env a1).success = false →
          strContains p ((testResultAt env a1).error.getD "Unknown test failure")) := by
  intro r
  induction r with
  | zero => intro s a b p h; rw [runLoop_zero] at h; cases h
  | succ n ih =>
    intro s a b p hmem
    rw [runLoop_succ] at hmem ⊢
    by_cases hs : (runIter env s a).success = true
    · rw [if_pos hs] at hmem ⊢
      dsimp only at hmem ⊢
      refine ⟨fun e he => runIter_genReq_contains env s a b p hmem e he, ?_⟩
      intro a1 h1 hlt _
      have hb : b = a := runIter_events_attempt env s a _ hmem
      have ha1 : a1 = a := runIter_events_attempt env s a _ h1
      exact absurd hlt (by omega)
    · rw [if_neg hs] at hmem ⊢
      dsimp only at hmem ⊢
      have hf : (runIter env s a).success = false := by
        cases h : (runIter env s a).success
        · rfl
        · exact absurd h hs
      rcases List.mem_append.mp hmem with hin | hin
      · have hb : b = a := runIter_events_attempt env s a _ hin
        refine ⟨fun e he => runIter_genReq_contains env s a b p hin e he, ?_⟩
        intro a1 h1 hlt _
        rcases List.mem_append.mp h1 with h2 | h2
        · have ha1 : a1 = a := runIter_events_attempt env s a _ h2
          exact absurd hlt (by omega)
        · have := (runLoop_events_attempt env n (runIter env s a).state (a + 1) _ h2).1
          have ha1 : a + 1 ≤ evAttempt (Event.testRun a1) := this
          simp [evAttempt] at ha1
          exact absurd hlt (by omega)
      · have hrec := ih (runIter env s a).state (a + 1) b p hin
        rcases (runIter_errors env s a).1 hf with ⟨e0, herr⟩
        constructor
        · intro e he
          exact hrec.1 e (by rw [herr]; exact List.mem_append.mpr (Or.inl he))
        · intro a1 h1 hlt hfail
          rcases List.mem_append.mp h1 with h2 | h2
          · have ha1 : a1 = a := runIter_events_attempt env s a _ h2
            rw [ha1] at h2 ⊢
            have herr2 := runIter_test_err env s a h2 hf
            exact hrec.1 _ (by rw [herr2]; exact List.mem_append.mpr (Or.inr (by simp)))
          · exact hrec.2 a1 h2 hlt hfail

theorem runLoop_errors_prefix (env : Env) :
    ∀ (r : Nat) (s : AgentState) (a : Nat),
      ∃ t, (runLoop env s a r).state.errors = s.errors ++ t := by
  intro r
  induction r with
  | zero => intro s a; exact ⟨[], by rw [runLoop_zero]; simp⟩
  | succ n ih =>
    intro s a
    rw [runLoop_succ]
    by_cases hs : (runIter env s a).success = true
    · rw [if_pos hs]
      exact ⟨[], by dsimp only; rw [(runIter_errors env s a).2 hs]; simp⟩
    · rw [if_neg hs]
      dsimp only
      have hf : (runIter env s a).success = false := by
        cases h : (runIter env s a).success
        · rfl
        · exact absurd h hs
      rcases (runIter_errors env s a).1 hf with ⟨e0, herr⟩
      rcases ih (runIter env s a).state (a + 1) with ⟨t, ht⟩
      exact ⟨[e0] ++ t, by rw [ht, herr, List.append_assoc]⟩

theorem runLoop_prompt_all_errors (env : Env) :
    ∀ (r : Nat) (s : AgentState) (a : Nat) (b : Nat) (p : String),
      Event.genReq b p ∈ (runLoop env s a r).events →
      ∀ e ∈ (runLoop env s a r).state.errors.take (s.errors.length + (b - a)),
        strContains p e := by
  intro r
  induction r with
  | zero => intro s a b p h; rw [runLoop_zero] at h; cases h
  | succ n ih =>
    intro s a b p hmem
    rw [runLoop_succ] at hmem ⊢
    by_cases hs : (runIter env s a).success = true
    · rw [if_pos hs] at hmem ⊢
      dsimp only at hmem ⊢
      have herr : (runIter env s a).state.errors = s.errors := (runIter_errors env s a).2 hs
      intro e he
      rw [herr] at he
      exact runIter_genReq_contains env s a b p hmem e (List.take_subset _ _ he)
    · rw [if_neg hs] at hmem ⊢
      dsimp only at hmem ⊢
      have hf : (runIter env s a).success = false := by
        cases h : (runIter env s a).success
        · rfl
        · exact absurd h hs
      rcases (runIter_errors env s a).1 hf with ⟨e0, herr⟩
      rcases List.mem_append.mp hmem with hin | hin
      · have hb : b = a := runIter_events_attempt env s a _ hin
        intro e he
        rcases runLoop_errors_prefix env n (runIter env s a).state (a + 1) with ⟨t, ht⟩
        rw [ht, herr, List.append_assoc] at he
        have hba : b - a = 0 := by omega
        rw [hba, Nat.add_zero, List.take_left] at he
        exact runIter_genReq_contains env s a b p hin e he
      · have hb : a + 1 ≤ b := by
          have := (runLoop_events_attempt env n (runIter env s a).state (a + 1) _ hin).1
          simpa [evAttempt] using this
        intro e he
        have harith : s.errors.length + (b - a) =
            (runIter env s a).state.errors.length + (b - (a + 1)) := by
          rw [herr]
          simp only [List.length_append, List.length_singleton]
          omega
        rw [harith] at he
        exact ih (runIter env s a).state (a + 1) b p hin e he

theorem runLoop_coverage (env : Env) :
    ∀ (r : Nat) (s : AgentState) (a : Nat) (k : Nat), a ≤ k →
      k < a + (runLoop env s a r).iters →
      (∀ e, env.planPhase k ≠ Except.error e) →
      (∀ e, env.genCsv k ≠ Except.error e) →
      (∀ p e, env.llmGen k p ≠ Except.error e) →
      (∃ p, Event.genReq k p ∈ (runLoop env s a r).events) ∧
        Event.testRun k ∈ (runLoop env s a r).events := by
  intro r
  induction r with
  | zero =>
    intro s a k h1 h2
    rw [runLoop_zero] at h2
    dsimp only at h2
    omega
  | succ n ih =>
    intro s a k h1 h2 hp hg hl
    rw [runLoop_succ] at h2 ⊢
    by_cases hs : (runIter env s a).success = true
    · rw [if_pos hs] at h2 ⊢
      dsimp only at h2 ⊢
      have hk : k = a := by omega
      subst hk
      exact runIter_no_exn env s k hp hg hl
    · rw [if_neg hs] at h2 ⊢
      dsimp only at h2 ⊢
      by_cases hk : k = a
      · subst hk
        rcases runIter_no_exn env s k hp hg hl with ⟨⟨p, hpmem⟩, htmem⟩
        exact ⟨⟨p, List.mem_append.mpr (Or.inl hpmem)⟩, List.mem_append.mpr (Or.inl htmem)⟩
      · have h1' : a + 1 ≤ k := by omega
        have h2' : k < (a + 1) + (runLoop env (runIter env s a).state (a + 1) n).iters := by
          omega
        rcases ih (runIter env s a).state (a + 1) k h1' h2' hp hg hl with ⟨⟨p, hpmem⟩, htmem⟩
        exact ⟨⟨p, List.mem_append.mpr (Or.inr hpmem)⟩, List.mem_append.mpr (Or.inr htmem)⟩

end Agent

namespace Agent

/-! ## Lemmas: the whole `run` -/

theorem run_cases (env : Env) (tb : String) :
    run env tb = ⟨false, none, [], [], 0⟩
  ∨ (∃ pdf, (pdfCandidates tb).find? env.fileExists = some pdf ∧
      validate_inputs env (initState tb pdf) = true ∧
      run env tb =
        ⟨(runLoop env (initState tb pdf) 1 3).success,
         some (runLoop env (initState tb pdf) 1 3).state,
         (runLoop env (initState tb pdf) 1 3).events,
         (runLoop env (initState tb pdf) 1 3).writes,
         (runLoop env (initState tb pdf) 1 3).iters⟩) := by
  unfold run
  cases hf : (pdfCandidates tb).find? env.fileExists with
  | none => exact Or.inl rfl
  | some pdf =>
    by_cases hv : validate_inputs env (initState tb pdf) = true
    · exact Or.inr ⟨pdf, rfl, hv, by dsimp only; rw [if_pos hv]; rfl⟩
    · exact Or.inl (by dsimp only; rw [if_neg hv])

theorem runLoop_fail_iters (env : Env) :
    ∀ (r : Nat) (s : AgentState) (a : Nat), (runLoop env s a r).success = false →
      (runLoop env s a r).iters = r := by
  intro r
  induction r with
  | zero => intro s a _; rfl
  | succ n ih =>
    intro s a hfail
    rw [runLoop_succ] at hfail ⊢
    by_cases hs : (runIter env s a).success = true
    · rw [if_pos hs] at hfail; cases hfail
    · rw [if_neg hs] at hfail ⊢
      dsimp only at hfail ⊢
      rw [ih (runIter env s a).state (a + 1) hfail]

theorem applyWrites_frame (P : String) :
    ∀ (ws : List (String × String)) (fs : String → Option String) (q : String),
      (∀ w ∈ ws, w.1 = P) → q ≠ P → applyWrites fs ws q = fs q := by
  intro ws
  induction ws with
  | nil => intro fs q _ _; rfl
  | cons w rest ih =>
    intro fs q hall hq
    cases w with
    | mk p c =>
      rw [applyWrites]
      have hp : p = P := hall (p, c) (by simp)
      rw [ih _ q (fun w hw => hall w (by simp [hw])) hq]
      simp only [hp]
      rw [if_neg hq]

end Agent

namespace IciciParser

/-! ## Lemmas: cumulative sums -/

theorem cumsumFrom_get :
    ∀ (l : List Rat) (c : Rat) (i : Nat) (hi : i < (cumsumFrom c l).length),
      (cumsumFrom c l).get ⟨i, hi⟩ = c + ((l.take (i + 1)).sum) := by
  intro l
  induction l with
  | nil => intro c i hi; simp [cumsumFrom] at hi
  | cons x xs ih =>
    intro c i hi
    cases i with
    | zero => simp [cumsumFrom]
    | succ j =>
      have hj : j < (cumsumFrom (c + x) xs).length := by
        simpa [cumsumFrom] using hi
      have := ih (c + x) j hj
      simp only [cumsumFrom, List.get_cons_succ] at hi ⊢
      rw [this]
      simp [List.sum_cons]
      ring

theorem pyCumsum_get (l : List Rat) (i : Nat) (hi : i < (pyCumsum l).length) :
    (pyCumsum l).get ⟨i, hi⟩ = ((l.take (i + 1)).sum) := by
  have := cumsumFrom_get l 0 i hi
  simpa using this

end IciciParser

namespace Agent

/-! ## Claim theorems -/

/-- Claim C2: the attempt counter never exceeds the fixed maximum of
three: every traced phase event belongs to an attempt numbered between
1 and 3, no more than three plan/generate/test cycles are started, and
whenever the loop ran, the final state has `max_attempts = 3` and an
`attempt` between 1 and 3. -/
theorem c2_attempt_bounded (env : Env) (tb : String) :
    (∀ ev ∈ (run env tb).events, 1 ≤ evAttempt ev ∧ evAttempt ev ≤ 3) ∧
    (run env tb).iterations ≤ 3 ∧
    (∀ st, (run env tb).finalState = some st →
      st.max_attempts = 3 ∧ 1 ≤ st.attempt ∧ st.attempt ≤ 3) := by
  rcases run_cases env tb with h | ⟨pdf, hf, hv, h⟩ <;> rw [h] <;> dsimp only
  · exact ⟨fun ev hev => absurd hev (List.not_mem_nil ev), by omega, fun st hst => by cases hst⟩
  · refine ⟨?_, runLoop_iters_le env 3 _ 1, ?_⟩
    · intro ev hev
      have := runLoop_events_attempt env 3 (initState tb pdf) 1 ev hev
      omega
    · intro st hst
      injection hst with hst
      have hmax := (runLoop_cfg env 3 (initState tb pdf) 1).2.2.2.2
      have hatt := runLoop_attempt_bound env 3 (initState tb pdf) 1 (by omega)
      rw [hst] at hmax hatt
      refine ⟨?_, by omega, by omega⟩
      rw [hmax]
      rfl

set_option maxRecDepth 4000 in
/-- Claim C2 witness: in the concrete all-attempts-fail world the first
test event lies in attempt range, and the final state has
`max_attempts = 3` and a bounded attempt counter. -/
theorem c2_attempt_bounded_witness :
    (1 ≤ evAttempt (Event.testRun 1) ∧ evAttempt (Event.testRun 1) ≤ 3) ∧
    (((run envFailAll "icici").finalState.getD default).max_attempts = 3 ∧
      1 ≤ ((run envFailAll "icici").finalState.getD default).attempt ∧
      ((run envFailAll "icici").finalState.getD default).attempt ≤ 3) := by
  have h : (run envFailAll "icici").finalState =
      some ((run envFailAll "icici").finalState.getD default) := by decide
  exact ⟨(c2_attempt_bounded envFailAll "icici").1 (Event.testRun 1) (by decide),
    (c2_attempt_bounded envFailAll "icici").2.2 _ h⟩

/-- Claim C1 (counterexample): in a world where the plan phase succeeds
on attempt 1 and every test fails, the second attempt runs its test
phase but makes no plan request — so not every attempt is a full
plan→generate→test cycle. -/
theorem c1_counterexample :
    Event.testRun 2 ∈ (run envFailAll "icici").events ∧
      Event.planReq 2 ∉ (run envFailAll "icici").events := by decide

/-- Claim C1 (amended): within every attempt, any plan request precedes
the code-generation request, which precedes the test run, and attempts
are traced in order (strictly increasing event keys); the run's first
event is always the attempt-1 plan request (a plan request happens only
when no plan is cached, and nothing is cached at attempt 1); and on any
started attempt whose external calls raise no exception, a
code-generation request is made and the test phase runs. -/
theorem c1_plan_cached_order (env : Env) (tb : String) :
    List.Chain' (fun x y => evKey x < evKey y) (run env tb).events ∧
    ((run env tb).events ≠ [] → (run env tb).events.head? = some (Event.planReq 1)) ∧
    (∀ a, 1 ≤ a → a ≤ (run env tb).iterations →
      (∀ e, env.planPhase a ≠ Except.error e) →
      (∀ e, env.genCsv a ≠ Except.error e) →
      (∀ p e, env.llmGen a p ≠ Except.error e) →
      (∃ p, Event.genReq a p ∈ (run env tb).events) ∧
        Event.testRun a ∈ (run env tb).events) := by
  rcases run_cases env tb with h | ⟨pdf, hf, hv, h⟩ <;> rw [h] <;> dsimp only
  · exact ⟨List.chain'_nil, fun hne => absurd rfl hne,
      fun a h1 h2 _ _ _ => absurd (Nat.le_trans h1 h2) (by omega)⟩
  · refine ⟨runLoop_chain env 3 _ 1, ?_, ?_⟩
    · intro _
      exact runLoop_head env 3 (initState tb pdf) 1 rfl (by omega)
    · intro a h1 h2 hp hg hl
      exact runLoop_coverage env 3 _ 1 a h1 (by omega) hp hg hl

/-- Claim C1 witness: in the all-attempts-fail world the first event is
the attempt-1 plan request, and attempt 2 (whose calls raise nothing)
makes a generation request and runs its test. -/
theorem c1_plan_cached_order_witness :
    (run envFailAll "icici").events.head? = some (Event.planReq 1) ∧
    ((∃ p, Event.genReq 2 p ∈ (run envFailAll "icici").events) ∧
      Event.testRun 2 ∈ (run envFailAll "icici").events) := by
  refine ⟨(c1_plan_cached_order envFailAll "icici").2.1 (by decide),
    (c1_plan_cached_order envFailAll "icici").2.2 2 (by decide) (by decide)
      (fun e he => Except.noConfusion he)
      (fun e he => Except.noConfusion he)
      (fun p e he => Except.noConfusion he)⟩

/-- Claim C3: when the loop ran, the number of accumulated error strings
plus one for a successful final attempt equals the number of started
attempts; each iteration appends exactly one error string when it fails
(whether the failure was a test failure or an exception) and leaves the
list untouched when it succeeds (the list is never truncated); the
attempt-`a` code-generation prompt contains every one of the first
`a - 1` accumulated error strings — the whole error list as it stood
when the prompt was built, exception errors included; and in particular
it contains the test error string of every earlier failed test run. -/
theorem c3_error_feedback (env : Env) (tb : String) (st : AgentState)
    (hst : (run env tb).finalState = some st) :
    st.errors.length + (if (run env tb).success = true then 1 else 0) =
      (run env tb).iterations ∧
    (∀ (s : AgentState) (a : Nat),
      ((runIter env s a).success = false →
        ∃ e, (runIter env s a).state.errors = s.errors ++ [e]) ∧
      ((runIter env s a).success = true → (runIter env s a).state.errors = s.errors)) ∧
    (∀ a p, Event.genReq a p ∈ (run env tb).events →
      ∀ e ∈ st.errors.take (a - 1), strContains p e) ∧
    (∀ a p, Event.genReq a p ∈ (run env tb).events →
      ∀ a1, Event.testRun a1 ∈ (run env tb).events → a1 < a →
        (testResultAt env a1).success = false →
        strContains p ((testResultAt env a1).error.getD "Unknown test failure")) := by
  rcases run_cases env tb with h | ⟨pdf, hf, hv, h⟩ <;> rw [h] at hst ⊢
  · cases hst
  · dsimp only at hst ⊢
    injection hst with hst
    refine ⟨?_, fun s a => runIter_errors env s a, ?_, ?_⟩
    · have herr := runLoop_errlen env 3 (initState tb pdf) 1
      rw [hst] at herr
      simpa [initState] using herr
    · intro a p hmem e he
      apply runLoop_prompt_all_errors env 3 (initState tb pdf) 1 a p hmem e
      rw [hst]
      simpa [initState] using he
    · intro a p hmem a1 h1 hlt hfail
      exact (runLoop_contains env 3 _ 1 a p hmem).2 a1 h1 hlt hfail

set_option maxRecDepth 4000 in
/-- Claim C3 witness: in the all-attempts-fail world the final error
list has one entry per attempt, the first attempt appends exactly one
error, and the attempt-2 prompt contains both the first accumulated
error string (first entry of the final error list) and the attempt-1
test error string. -/
theorem c3_error_feedback_witness :
    ((run envFailAll "icici").finalState.getD default).errors.length +
        (if (run envFailAll "icici").success = true then 1 else 0) =
      (run envFailAll "icici").iterations ∧
    (∃ e, (runIter envFailAll (initState "icici" "data/icici/icici_sample.pdf") 1).state.errors =
      (initState "icici" "data/icici/icici_sample.pdf").errors ++ [e]) ∧
    strContains wPrompt
      (((run envFailAll "icici").finalState.getD default).errors.getD 0 "") ∧
    strContains wPrompt ((testResultAt envFailAll 1).error.getD "Unknown test failure") := by
  have h : (run envFailAll "icici").finalState =
      some ((run envFailAll "icici").finalState.getD default) := by decide
  exact ⟨(c3_error_feedback envFailAll "icici" _ h).1,
    ((c3_error_feedback envFailAll "icici" _ h).2.1 _ 1).1 (by decide),
    (c3_error_feedback envFailAll "icici" _ h).2.2.1 2 wPrompt (by decide) _ (by decide),
    (c3_error_feedback envFailAll "icici" _ h).2.2.2 2 wPrompt (by decide) 1 (by decide)
      (by decide) (by decide)⟩

/-- Claim C4: `run` returns `True` exactly when some attempt's test
phase reports success, and that successful test run is the last thing
the loop does (no further retries); when it returns `False`, either the
loop never started or all three attempts were used. -/
theorem c4_success_iff_test (env : Env) (tb : String) :
    ((run env tb).success = true ↔
      ∃ a, (run env tb).events.getLast? = some (Event.testRun a) ∧
        (testResultAt env a).success = true) ∧
    ((run env tb).success = false →
      (run env tb).iterations = 0 ∨ (run env tb).iterations = 3) := by
  rcases run_cases env tb with h | ⟨pdf, hf, hv, h⟩ <;> rw [h] <;> dsimp only
  · exact ⟨⟨(fun hfalse => by cases hfalse),
      (fun hex => by obtain ⟨a, hlast, _⟩ := hex; cases hlast)⟩,
      fun _ => Or.inl rfl⟩
  · exact ⟨runLoop_success_iff env 3 _ 1,
      fun hfail => Or.inr (runLoop_fail_iters env 3 _ 1 hfail)⟩

/-- Claim C4 witness: with a first-attempt success the run returns
`True` and the trace ends at that test; with all attempts failing the
run used all three iterations. -/
theorem c4_success_iff_test_witness :
    (∃ a, (run envSucc "icici").events.getLast? = some (Event.testRun a) ∧
      (testResultAt envSucc a).success = true) ∧
    ((run envFailAll "icici").iterations = 0 ∨ (run envFailAll "icici").iterations = 3) := by
  exact ⟨(c4_success_iff_test envSucc "icici").1.mp (by decide),
    (c4_success_iff_test envFailAll "icici").2 (by decide)⟩

/-- Claim C6: every file write of a run goes to the single fixed path
`custom_parsers/<bank>_parser.py` (each attempt overwrites the previous
artifact), and replaying the writes leaves every other path of any file
system untouched. -/
theorem c6_single_artifact (env : Env) (tb : String) :
    (∀ w ∈ (run env tb).writes, w.1 = "custom_parsers/" ++ tb ++ "_parser.py") ∧
    (∀ (fs : String → Option String) (q : String),
      q ≠ "custom_parsers/" ++ tb ++ "_parser.py" →
      applyWrites fs (run env tb).writes q = fs q) := by
  have hall : ∀ w ∈ (run env tb).writes, w.1 = "custom_parsers/" ++ tb ++ "_parser.py" := by
    rcases run_cases env tb with h | ⟨pdf, hf, hv, h⟩ <;> rw [h] <;> dsimp only
    · intro w hw; cases hw
    · intro w hw
      have := runLoop_writes env 3 (initState tb pdf) 1 w hw
      rw [this]
      rfl
  exact ⟨hall, fun fs q hq => applyWrites_frame _ _ fs q hall hq⟩

/-- Claim C6 witness: in the all-attempts-fail world the first recorded
write targets `custom_parsers/icici_parser.py`, and replaying the run's
writes over the empty file system leaves `"other.py"` absent. -/
theorem c6_single_artifact_witness :
    ((run envFailAll "icici").writes.getD 0 default).1 =
      "custom_parsers/" ++ "icici" ++ "_parser.py" ∧
    applyWrites fsEmpty (run envFailAll "icici").writes "other.py" = fsEmpty "other.py" := by
  exact ⟨(c6_single_artifact envFailAll "icici").1 _ (by decide),
    (c6_single_artifact envFailAll "icici").2 fsEmpty "other.py" (by decide)⟩

/-- Claim C7: the retry loop always terminates — at most three
iterations are started for any bank name and any behaviour of the
external world — and an exception inside an attempt neither aborts the
loop nor escapes: if the loop started and no test ever succeeds (for
example because every phase raises), all three iterations still run and
`run` returns `False`. -/
theorem c7_loop_terminates (env : Env) (tb : String) :
    (run env tb).iterations ≤ 3 ∧
    ((run env tb).finalState.isSome = true →
      (∀ b, (testResultAt env b).success = false) →
      (run env tb).iterations = 3 ∧ (run env tb).success = false) := by
  rcases run_cases env tb with h | ⟨pdf, hf, hv, h⟩ <;> rw [h] <;> dsimp only
  · exact ⟨by omega, fun hsome => by cases hsome⟩
  · exact ⟨runLoop_iters_le env 3 _ 1,
      fun _ hall => runLoop_all_fail env hall 3 (initState tb pdf) 1⟩

/-- Claim C7 witness: in a world where the plan phase raises on every
attempt and every test import fails, the run still performs exactly
three iterations and returns `False`. -/
theorem c7_loop_terminates_witness :
    (run envExnAll "icici").iterations = 3 ∧ (run envExnAll "icici").success = false :=
  (c7_loop_terminates envExnAll "icici").2 (by decide) (fun _ => rfl)

end Agent

namespace Agent

/-- Claim C5: `_test_phase` reports success only when the parse call
returned a DataFrame whose column list equals the expected CSV's column
list and which has at least one row (in particular the import and the
CSV read succeeded); in every other case it reports failure with an
error string. -/
theorem c5_test_phase_checks (io : TestIO) :
    ((test_phase io).success = true →
      io.importR = Except.ok () ∧
      ∃ cols nrows csvRows, io.parseR = Except.ok (ParseRes.df cols nrows) ∧
        io.csvR = Except.ok (cols, csvRows) ∧ 1 ≤ nrows) ∧
    ((test_phase io).success = false → ∃ msg, (test_phase io).error = some msg) := by
  obtain ⟨ir, pr, cr, vr⟩ := io
  dsimp only [test_phase]
  cases ir with
  | error e =>
    cases e <;> exact ⟨(fun h => by cases h), (fun _ => ⟨_, rfl⟩)⟩
  | ok u =>
    cases u
    cases pr with
    | error e =>
      cases e <;> exact ⟨(fun h => by cases h), (fun _ => ⟨_, rfl⟩)⟩
    | ok res =>
      cases cr with
      | error e =>
        cases e <;> exact ⟨(fun h => by cases h), (fun _ => ⟨_, rfl⟩)⟩
      | ok ec =>
        obtain ⟨ecols, en⟩ := ec
        cases res with
        | notDF => exact ⟨(fun h => by cases h), (fun _ => ⟨_, rfl⟩)⟩
        | df cols nrows =>
          dsimp only
          by_cases hc : cols = ecols
          · rw [if_neg (by simp [hc])]
            by_cases hn : nrows = 0
            · rw [if_pos hn]
              exact ⟨(fun h => by cases h), (fun _ => ⟨_, rfl⟩)⟩
            · rw [if_neg hn]
              rw [if_pos (by rw [hc])]
              cases vr with
              | ok u2 =>
                cases u2
                refine ⟨?_, (fun h => by cases h)⟩
                intro _
                exact ⟨rfl, cols, nrows, en, rfl, by rw [hc], Nat.pos_of_ne_zero hn⟩
              | error e2 =>
                exact ⟨(fun h => by cases h), (fun _ => ⟨_, rfl⟩)⟩
          · rw [if_pos hc]
            exact ⟨(fun h => by cases h), (fun _ => ⟨_, rfl⟩)⟩

/-- Claim C5 witness: on inputs where every check passes the success
characterisation yields the DataFrame facts, and on an empty-DataFrame
input the phase reports failure with an error string. -/
theorem c5_test_phase_checks_witness :
    (ioGood.importR = Except.ok () ∧
      ∃ cols nrows csvRows, ioGood.parseR = Except.ok (ParseRes.df cols nrows) ∧
        ioGood.csvR = Except.ok (cols, csvRows) ∧ 1 ≤ nrows) ∧
    (∃ msg, (test_phase ioBad).error = some msg) :=
  ⟨(c5_test_phase_checks ioGood).1 (by decide), (c5_test_phase_checks ioBad).2 (by decide)⟩

/-- Claim C8: `BankParserAgent.__init__` assigns
`"api_key" or os.getenv("GROQ_API_KEY")`, and the non-empty literal is
truthy, so for every constructor argument and every environment value
the credential is the literal string `"api_key"`. -/
theorem c8_api_key_literal (apiKeyArg groqEnvVar : Option String) :
    init_api_key apiKeyArg groqEnvVar = some "api_key" := rfl

end Agent

namespace IciciParser

/-- Claim C9: `icici_parser.parse` never propagates an exception: when
any step of its body raises, the handler returns `None`, and otherwise
it returns the DataFrame — despite the declared `pd.DataFrame` return
type. -/
theorem c9_parse_catches (env : IciciEnv) :
    (∀ e, parseBody env = Except.error e → parse env = none) ∧
    (∀ df, parseBody env = Except.ok df → parse env = some df) := by
  constructor
  · intro e h
    unfold parse
    rw [h]
  · intro df h
    unfold parse
    rw [h]

/-- Claim C9 witness: when text extraction raises, `parse` returns
`None`. -/
theorem c9_parse_catches_witness : parse envBoom = none :=
  (c9_parse_catches envBoom).1 "boom" rfl

/-- Claim C10: whenever `parse` returns a DataFrame, its Balance column
is exactly the cumulative sum of its Credit Amt column — entry `i` is
the sum of the first `i + 1` credit amounts; the balance is computed,
never read from the document. -/
theorem c10_balance_cumsum (env : IciciEnv) (df : DataFrame)
    (h : parse env = some df) :
    df.balance = pyCumsum df.creditAmt ∧
    ∀ i (hi : i < df.balance.length),
      df.balance.get ⟨i, hi⟩ = ((df.creditAmt.take (i + 1)).sum) := by
  have hb : parseBody env = Except.ok df := by
    unfold parse at h
    cases hpb : parseBody env with
    | ok d =>
      rw [hpb] at h
      injection h with h
      rw [h]
    | error e => rw [hpb] at h; cases h
  have hbal : df.balance = pyCumsum df.creditAmt := by
    unfold parseBody at hb
    cases ht : env.extractText with
    | error e => rw [ht] at hb; cases hb
    | ok text =>
      rw [ht] at hb
      dsimp only at hb
      cases hcl : classifyLines env.pyFloat
          (pySplit "\n" (pyStrip (nlToSpace (collapseWS text)))) {} with
      | error e => rw [hcl] at hb; cases hb
      | ok acc =>
        rw [hcl] at hb
        dsimp only at hb
        cases hmk : mkDataFrame acc with
        | error e => rw [hmk] at hb; cases hb
        | ok df0 =>
          rw [hmk] at hb
          dsimp only at hb
          injection hb with hb
          rw [← hb]
  refine ⟨hbal, ?_⟩
  intro i hi
  have hlen : i < (pyCumsum df.creditAmt).length := by rw [← hbal]; exact hi
  have := pyCumsum_get df.creditAmt i hlen
  rw [List.get_of_eq hbal ⟨i, hi⟩]
  exact this

/-- Claim C10 witness: on empty extracted text `parse` succeeds with the
empty DataFrame, whose Balance column is the cumulative sum of its
(empty) Credit Amt column. -/
theorem c10_balance_cumsum_witness :
    parse envEmpty = some ⟨[], [], [], [], []⟩ ∧
    (⟨[], [], [], [], []⟩ : DataFrame).balance =
      pyCumsum (⟨[], [], [], [], []⟩ : DataFrame).creditAmt := by
  have h : parse envEmpty = some ⟨[], [], [], [], []⟩ := by decide
  exact ⟨h, (c10_balance_cumsum envEmpty _ h).1⟩

end IciciParser
